import Mathlib

/-!
Shallow embedding of the pngme chunk engine (src/chunk.rs, src/chunk_type.rs).

Machine integers are modelled as `Nat` with explicit `% 2^w` wherever the Rust
code truncates (`as u32`) or wraps. `usize` arithmetic follows release-mode
wrapping semantics (`% 2^64`). Byte slices are `List Nat` whose elements are
meant to be `< 256`; theorems carry that bound as a hypothesis where it
matters. Fallible Rust code (`Result`) becomes `Except`; a Rust panic (e.g.
`slice::split_at` with `mid > len`) is a distinct observable outcome and gets
its own constructor in the decode result type.
-/

namespace Pngme

/-- The error kinds of `crate::Error = Box<dyn std::error::Error>` that the
chunk engine can actually box: `InvalidChunkTypeBytes` (chunk_type.rs),
`TryFromSliceError` (from the `?` on `<[u8; 4]>::try_from` / `try_into`),
`InvalidChunkLength` and `InvalidChunkCrc` (chunk.rs). -/
inductive PngError where
  | invalidChunkTypeBytes (b0 b1 b2 b3 : Nat)
  | tryFromSliceError
  | invalidChunkLength (expected received : Nat)
  | invalidChunkCrc (expected computed : Nat)
deriving DecidableEq

deriving instance DecidableEq for Except

/-- `u8::is_ascii_alphabetic`: `b'A'..=b'Z' | b'a'..=b'z'`. -/
def isAsciiAlphabetic (b : Nat) : Bool :=
  (65 ≤ b && b ≤ 90) || (97 ≤ b && b ≤ 122)

/-- `ChunkType { bytes: [u8; 4] }`, the four array cells as fields. -/
structure ChunkType where
  b0 : Nat
  b1 : Nat
  b2 : Nat
  b3 : Nat
deriving DecidableEq

/-- `ChunkType::bytes(&self) -> [u8; 4]`, rendered as the 4-element list. -/
def ChunkType.bytes (t : ChunkType) : List Nat :=
  [t.b0, t.b1, t.b2, t.b3]

/-- `ChunkType::is_critical`: `(self.bytes[0] & 0x20) == 0`. -/
def ChunkType.is_critical (t : ChunkType) : Bool :=
  t.b0 &&& 0x20 == 0

/-- `ChunkType::is_public`: `(self.bytes[1] & 0x20) == 0`. -/
def ChunkType.is_public (t : ChunkType) : Bool :=
  t.b1 &&& 0x20 == 0

/-- `ChunkType::is_reserved_bit_valid`: `(self.bytes[2] & 0x20) == 0`. -/
def ChunkType.is_reserved_bit_valid (t : ChunkType) : Bool :=
  t.b2 &&& 0x20 == 0

/-- `ChunkType::is_safe_to_copy`: `(self.bytes[3] & 0x20) != 0`. -/
def ChunkType.is_safe_to_copy (t : ChunkType) : Bool :=
  t.b3 &&& 0x20 != 0

/-- `ChunkType::is_valid`: `self.is_reserved_bit_valid()`. -/
def ChunkType.is_valid (t : ChunkType) : Bool :=
  t.is_reserved_bit_valid

/-- `impl TryFrom<[u8; 4]> for ChunkType`: ok iff all four bytes are ASCII
alphabetic, otherwise `InvalidChunkTypeBytes`. -/
def ChunkType.tryFrom (b0 b1 b2 b3 : Nat) : Except PngError ChunkType :=
  if isAsciiAlphabetic b0 && isAsciiAlphabetic b1 &&
     isAsciiAlphabetic b2 && isAsciiAlphabetic b3 then
    .ok ⟨b0, b1, b2, b3⟩
  else
    .error (.invalidChunkTypeBytes b0 b1 b2 b3)

/-- `impl FromStr for ChunkType`:
`Self::try_from(<[u8; 4]>::try_from(s.as_bytes())?)`. The argument is the
string's byte encoding; a length other than 4 makes the slice-to-array
conversion fail with `TryFromSliceError`. -/
def ChunkType.fromStr (s : List Nat) : Except PngError ChunkType :=
  match s with
  | [a, b, c, d] => ChunkType.tryFrom a b c d
  | _ => .error .tryFromSliceError

/-- One round of the CRC table generator's inner loop (chunk.rs lines 55-61):
`if (c & 1) != 0 { c = 0xedb88320 ^ (c >> 1) } else { c >>= 1 }`. -/
def crcStep (c : Nat) : Nat :=
  if c &&& 1 != 0 then 0xedb88320 ^^^ (c >>> 1) else c >>> 1

/-- Entry `n` of the 256-entry CRC table: the generator runs the inner loop
8 times starting from the index. The `OnceLock` caching is operationally
transparent (the table is a pure function of the index), so the array read
`crc_table[i]` with `i < 256` is modelled as `crcTableEntry i`. -/
def crcTableEntry (n : Nat) : Nat :=
  crcStep^[8] n

/-- The body of the `for byte in bytes` loop:
`crc = crc_table[((crc ^ *byte as u32) & 0xff) as usize] ^ (crc >> 8)`. -/
def crcUpdate (crc b : Nat) : Nat :=
  crcTableEntry ((crc ^^^ b) &&& 0xff) ^^^ (crc >>> 8)

/-- `compute_crc(bytes: &[u8]) -> u32` (chunk.rs lines 49-72). -/
def compute_crc (bytes : List Nat) : Nat :=
  (bytes.foldl crcUpdate 0xffffffff) ^^^ 0xffffffff

/-- `Chunk { chunk_type, data, crc }`. The Rust fields are private; every
`Chunk` in scope of the claims is produced by `Chunk.new` or `Chunk.tryFrom`. -/
structure Chunk where
  chunk_type : ChunkType
  data : List Nat
  crc : Nat
deriving DecidableEq

/-- `Chunk::new(chunk_type, data)`: computes the CRC over
`chunk_type.bytes() ++ data`. -/
def Chunk.new (chunk_type : ChunkType) (data : List Nat) : Chunk :=
  { chunk_type := chunk_type
    data := data
    crc := compute_crc (chunk_type.bytes ++ data) }

/-- `Chunk::length(&self) -> u32`: `self.data.len() as u32` truncates the
`usize` length to 32 bits. -/
def Chunk.length (c : Chunk) : Nat :=
  c.data.length % 2 ^ 32

/-- `u32::to_be_bytes` for `n < 2^32`: big-endian byte quadruple. -/
def toBE4 (n : Nat) : List Nat :=
  [n / 2 ^ 24 % 256, n / 2 ^ 16 % 256, n / 2 ^ 8 % 256, n % 256]

/-- `u32::from_be_bytes([a, b, c, d])`. -/
def fromBE4 (a b c d : Nat) : Nat :=
  a * 2 ^ 24 + b * 2 ^ 16 + c * 2 ^ 8 + d

/-- `Chunk::as_bytes`:
`(data.len() as u32).to_be_bytes() ++ chunk_type.bytes() ++ data ++ crc.to_be_bytes()`. -/
def Chunk.as_bytes (c : Chunk) : List Nat :=
  toBE4 (c.data.length % 2 ^ 32) ++ c.chunk_type.bytes ++ c.data ++ toBE4 c.crc

/-- The observable outcomes of `Chunk::try_from(&[u8])`: `Ok`, `Err`, or a
panic (which escapes the `Result` entirely). -/
inductive DecodeResult where
  | ok (c : Chunk)
  | err (e : PngError)
  | panicked
deriving DecidableEq

/-- `impl TryFrom<&[u8]> for Chunk` (chunk.rs lines 98-124).

Step by step against the source:
* `bytes.split_at(4)` panics when the slice is shorter than 4 bytes
  (`mid > len`), before any error can be returned;
* `u32::from_be_bytes(len.try_into()?)` — the arm for a non-4-byte prefix
  models the `TryFromSliceError` path of `try_into` (unreachable after a
  successful `split_at(4)`);
* the length check is strict equality against `len + size_of::<(u32,u32)>()`;
  `(bytes.len() - 8) as u32` is `usize` wrapping subtraction then truncation;
* the trailing 4 bytes are split off and compared against the recomputed CRC;
* the tag is parsed via `ChunkType::try_from`, errors propagated;
* the survivors are rebuilt with `Chunk::new`. -/
def Chunk.tryFrom (bytes : List Nat) : DecodeResult :=
  if bytes.length < 4 then
    .panicked
  else
    match bytes.take 4 with
    | [a, b, c, d] =>
      if fromBE4 a b c d + 8 ≠ (bytes.drop 4).length then
        .err (.invalidChunkLength (fromBE4 a b c d)
          (((bytes.drop 4).length + (2 ^ 64 - 8)) % 2 ^ 64 % 2 ^ 32))
      else
        match (bytes.drop 4).drop ((bytes.drop 4).length - 4) with
        | [e, f, g, h] =>
          if compute_crc ((bytes.drop 4).take ((bytes.drop 4).length - 4)) ≠
              fromBE4 e f g h then
            .err (.invalidChunkCrc (fromBE4 e f g h)
              (compute_crc ((bytes.drop 4).take ((bytes.drop 4).length - 4))))
          else
            match ((bytes.drop 4).take ((bytes.drop 4).length - 4)).take 4 with
            | [t0, t1, t2, t3] =>
              match ChunkType.tryFrom t0 t1 t2 t3 with
              | .ok ct =>
                .ok (Chunk.new ct
                  (((bytes.drop 4).take ((bytes.drop 4).length - 4)).drop 4))
              | .error e => .err e
            | _ => .err .tryFromSliceError
        | _ => .err .tryFromSliceError
    | _ => .err .tryFromSliceError

end Pngme

namespace Pngme

/-! ## Reference model of the spec's "plain bitwise CRC-32"

Modelled from the spec: reflected CRC-32 with polynomial 0xEDB88320, register
initialized to 0xFFFFFFFF, each byte XORed into the register followed by eight
single-bit reflected reduction steps, final result XORed with 0xFFFFFFFF.
This is the reference definition the table-driven `compute_crc` is compared
against (claim C5); it is deliberately written from the spec's words, not from
the source. -/

/-- One reflected reduction step of the reference CRC:
shift right, conditionally XOR the polynomial when the dropped bit was 1. -/
def bitStep (c : Nat) : Nat :=
  if c &&& 1 == 1 then (c >>> 1) ^^^ 0xedb88320 else c >>> 1

/-- The spec's plain bitwise CRC-32: per byte, XOR into the register and run
eight reflected reduction steps; no table. -/
def crc32_bitwise (bytes : List Nat) : Nat :=
  (bytes.foldl (fun crc b => bitStep^[8] (crc ^^^ b)) 0xffffffff) ^^^ 0xffffffff

/-! ## CRC equivalence lemmas (claim C5)

The table-driven loop and the plain bitwise loop agree because the reduction
step is linear over XOR, eight steps of a value with zero low byte are a plain
shift, and every register value splits as `(x &&& 0xff) ^^^ ((x >>> 8) <<< 8)`. -/

theorem crcStep_eq_bitStep : crcStep = bitStep := by
  funext c
  unfold crcStep bitStep
  rw [Nat.and_one_is_mod]
  rcases Nat.mod_two_eq_zero_or_one c with h | h <;> simp [h, Nat.xor_comm]

theorem shiftRight_distrib_xor (a b n : Nat) :
    (a ^^^ b) >>> n = (a >>> n) ^^^ (b >>> n) := by
  apply Nat.eq_of_testBit_eq
  intro i
  simp

theorem bitStep_arith (c : Nat) :
    bitStep c = (c >>> 1) ^^^ (c &&& 1) * 0xedb88320 := by
  unfold bitStep
  rw [Nat.and_one_is_mod]
  rcases Nat.mod_two_eq_zero_or_one c with h | h <;> simp [h, Nat.xor_comm]

theorem bitStep_xor (a b : Nat) : bitStep (a ^^^ b) = bitStep a ^^^ bitStep b := by
  rw [bitStep_arith, bitStep_arith, bitStep_arith, shiftRight_distrib_xor,
    Nat.and_xor_distrib_right]
  have hmul : ((a &&& 1) ^^^ (b &&& 1)) * 0xedb88320 =
      (a &&& 1) * 0xedb88320 ^^^ (b &&& 1) * 0xedb88320 := by
    rw [Nat.and_one_is_mod, Nat.and_one_is_mod]
    rcases Nat.mod_two_eq_zero_or_one a with ha | ha <;>
      rcases Nat.mod_two_eq_zero_or_one b with hb | hb <;> simp [ha, hb]
  rw [hmul]
  generalize a >>> 1 = x
  generalize b >>> 1 = y
  generalize (a &&& 1) * 0xedb88320 = u
  generalize (b &&& 1) * 0xedb88320 = v
  ac_rfl

theorem bitStep_iterate_xor (k a b : Nat) :
    bitStep^[k] (a ^^^ b) = bitStep^[k] a ^^^ bitStep^[k] b := by
  induction k generalizing a b with
  | zero => simp
  | succ k ih => rw [Function.iterate_succ_apply, Function.iterate_succ_apply,
      Function.iterate_succ_apply, bitStep_xor, ih]

theorem bitStep_shiftLeft (m k : Nat) : bitStep (m <<< (k + 1)) = m <<< k := by
  have h0 : m <<< (k + 1) &&& 1 = 0 := by
    rw [Nat.and_one_is_mod, Nat.shiftLeft_eq, Nat.pow_succ, ← Nat.mul_assoc,
      Nat.mul_mod_left]
  have h1 : m <<< (k + 1) >>> 1 = m <<< k := by
    rw [Nat.shiftLeft_eq, Nat.shiftLeft_eq, Nat.shiftRight_eq_div_pow,
      Nat.pow_succ, ← Nat.mul_assoc, Nat.pow_one, Nat.mul_div_cancel _ (by omega)]
  rw [bitStep_arith, h0, h1]
  simp

theorem bitStep_iterate_shiftLeft (k m : Nat) : bitStep^[k] (m <<< k) = m := by
  induction k generalizing m with
  | zero => simp
  | succ k ih => rw [Function.iterate_succ_apply, bitStep_shiftLeft, ih]

theorem low_high_decomposition (x : Nat) :
    (x &&& 0xff) ^^^ ((x >>> 8) <<< 8) = x := by
  apply Nat.eq_of_testBit_eq
  intro i
  have h255 : (0xff : Nat) = 2 ^ 8 - 1 := rfl
  rw [h255]
  simp only [Nat.testBit_xor, Nat.testBit_and, Nat.testBit_shiftLeft,
    Nat.testBit_shiftRight, Nat.testBit_two_pow_sub_one]
  by_cases h : i < 8
  · have : ¬ 8 ≤ i := by omega
    simp [h, this]
  · have h8 : 8 ≤ i := by omega
    have : 8 + (i - 8) = i := by omega
    simp [h, h8, this]

theorem bitStep_iterate8 (x : Nat) :
    bitStep^[8] x = bitStep^[8] (x &&& 0xff) ^^^ (x >>> 8) := by
  conv_lhs => rw [← low_high_decomposition x]
  rw [bitStep_iterate_xor, bitStep_iterate_shiftLeft]

theorem crcTableEntry_eq (n : Nat) : crcTableEntry n = bitStep^[8] n := by
  rw [crcTableEntry, crcStep_eq_bitStep]

theorem crcUpdate_eq_bitwise (crc b : Nat) (hb : b < 256) :
    crcUpdate crc b = bitStep^[8] (crc ^^^ b) := by
  have hb8 : b >>> 8 = 0 := by
    rw [Nat.shiftRight_eq_div_pow]
    omega
  rw [crcUpdate, crcTableEntry_eq, bitStep_iterate8 (crc ^^^ b),
    shiftRight_distrib_xor, hb8]
  simp

theorem foldl_crcUpdate_eq (l : List Nat) :
    ∀ a, (∀ b ∈ l, b < 256) →
      l.foldl crcUpdate a = l.foldl (fun crc b => bitStep^[8] (crc ^^^ b)) a := by
  induction l with
  | nil => intro a _; rfl
  | cons x xs ih =>
    intro a h
    rw [List.foldl_cons, List.foldl_cons, crcUpdate_eq_bitwise a x (h x (by simp))]
    exact ih _ (fun b hb => h b (by simp [hb]))

/-! ## Boundedness: the CRC register is a genuine `u32` -/

theorem crcStep_lt (c : Nat) (h : c < 2 ^ 32) : crcStep c < 2 ^ 32 := by
  have hs : c >>> 1 < 2 ^ 32 := by
    rw [Nat.shiftRight_eq_div_pow]
    omega
  unfold crcStep
  split
  · exact Nat.xor_lt_two_pow (by norm_num) hs
  · exact hs

theorem crcStep_iterate_lt (k c : Nat) (h : c < 2 ^ 32) : crcStep^[k] c < 2 ^ 32 := by
  induction k generalizing c with
  | zero => simpa
  | succ k ih => rw [Function.iterate_succ_apply]; exact ih _ (crcStep_lt c h)

theorem crcTableEntry_lt (n : Nat) (h : n < 2 ^ 32) : crcTableEntry n < 2 ^ 32 :=
  crcStep_iterate_lt 8 n h

theorem crcUpdate_lt (crc b : Nat) (h : crc < 2 ^ 32) : crcUpdate crc b < 2 ^ 32 := by
  have h1 : (crc ^^^ b) &&& 0xff < 2 ^ 32 :=
    lt_of_le_of_lt Nat.and_le_right (by norm_num)
  have h2 : crc >>> 8 < 2 ^ 32 := by
    rw [Nat.shiftRight_eq_div_pow]
    omega
  exact Nat.xor_lt_two_pow (crcTableEntry_lt _ h1) h2

theorem foldl_crcUpdate_lt (l : List Nat) :
    ∀ a, a < 2 ^ 32 → l.foldl crcUpdate a < 2 ^ 32 := by
  induction l with
  | nil => intro a h; simpa
  | cons x xs ih => intro a h; rw [List.foldl_cons]; exact ih _ (crcUpdate_lt a x h)

theorem compute_crc_lt (bytes : List Nat) : compute_crc bytes < 2 ^ 32 := by
  unfold compute_crc
  exact Nat.xor_lt_two_pow (foldl_crcUpdate_lt bytes _ (by norm_num)) (by norm_num)

/-! ## Big-endian u32 encode/decode -/

theorem fromBE4_toBE4 (n : Nat) (h : n < 2 ^ 32) :
    fromBE4 (n / 2 ^ 24 % 256) (n / 2 ^ 16 % 256) (n / 2 ^ 8 % 256) (n % 256) = n := by
  unfold fromBE4
  omega

/-! ## The decode-of-serialize round trip -/

/-- All four tag bytes pass the alphabetic check; the invariant every
`ChunkType` produced by the validating constructors satisfies. -/
def ChunkType.wellFormed (t : ChunkType) : Prop :=
  isAsciiAlphabetic t.b0 = true ∧ isAsciiAlphabetic t.b1 = true ∧
  isAsciiAlphabetic t.b2 = true ∧ isAsciiAlphabetic t.b3 = true

instance (t : ChunkType) : Decidable t.wellFormed := by
  unfold ChunkType.wellFormed
  infer_instance

theorem tryFrom_as_bytes_new (t : ChunkType) (d : List Nat)
    (ht : t.wellFormed) (hd : d.length < 2 ^ 32) :
    Chunk.tryFrom (Chunk.as_bytes (Chunk.new t d)) = .ok (Chunk.new t d) := by
  obtain ⟨ht0, ht1, ht2, ht3⟩ := ht
  have hmod : d.length % 2 ^ 32 = d.length := Nat.mod_eq_of_lt hd
  have hcrc : compute_crc (t.bytes ++ d) < 2 ^ 32 := compute_crc_lt _
  set n := d.length with hn
  set crc := compute_crc (t.bytes ++ d) with hcrcdef
  have hshape : Chunk.as_bytes (Chunk.new t d) =
      (n / 2 ^ 24 % 256) :: (n / 2 ^ 16 % 256) :: (n / 2 ^ 8 % 256) :: (n % 256) ::
        (t.bytes ++ (d ++ toBE4 crc)) := by
    simp [Chunk.as_bytes, Chunk.new, toBE4, hmod]
    omega
  rw [hshape]
  unfold Chunk.tryFrom
  rw [if_neg (by simp)]
  simp only [List.take_succ_cons, List.take_zero, List.drop_succ_cons, List.drop_zero]
  rw [fromBE4_toBE4 n hd]
  have hrestlen : (t.bytes ++ (d ++ toBE4 crc)).length = n + 8 := by
    simp [ChunkType.bytes, toBE4]
  rw [if_neg (by rw [hrestlen]; omega)]
  have hassoc : t.bytes ++ (d ++ toBE4 crc) = (t.bytes ++ d) ++ toBE4 crc := by
    rw [List.append_assoc]
  have hbodylen : (t.bytes ++ d).length = n + 4 := by
    simp [ChunkType.bytes]
  have htake : (t.bytes ++ (d ++ toBE4 crc)).take ((t.bytes ++ (d ++ toBE4 crc)).length - 4) =
      t.bytes ++ d := by
    rw [hrestlen, hassoc]
    exact List.take_left' (by omega)
  have hdrop : (t.bytes ++ (d ++ toBE4 crc)).drop ((t.bytes ++ (d ++ toBE4 crc)).length - 4) =
      toBE4 crc := by
    rw [hrestlen, hassoc]
    exact List.drop_left' (by omega)
  rw [htake, hdrop]
  simp only [toBE4]
  rw [fromBE4_toBE4 crc hcrc]
  rw [if_neg (by simp)]
  have htagtake : (t.bytes ++ d).take 4 = [t.b0, t.b1, t.b2, t.b3] := by
    simp [ChunkType.bytes]
  have htagdrop : (t.bytes ++ d).drop 4 = d := by
    simp [ChunkType.bytes]
  rw [htagtake, htagdrop]
  have htag : ChunkType.tryFrom t.b0 t.b1 t.b2 t.b3 = Except.ok t := by
    unfold ChunkType.tryFrom
    rw [if_pos (by simp [ht0, ht1, ht2, ht3])]
  show (match ChunkType.tryFrom t.b0 t.b1 t.b2 t.b3 with
        | Except.ok ct => DecodeResult.ok (Chunk.new ct d)
        | Except.error e => DecodeResult.err e) = DecodeResult.ok (Chunk.new t d)
  rw [htag]

/-- Serializing a chunk whose payload holds exactly `2 ^ 32` bytes truncates
the length field to `0`, so decoding hits the strict length check: the wrapped
`received` value is `(2 ^ 32 + 8 - 8) % 2 ^ 32 = 0` as well. The payload is
kept abstract so that no tactic ever materializes a `2 ^ 32`-element list. -/
theorem tryFrom_as_bytes_wronglen (t : ChunkType) (d : List Nat)
    (hd : d.length = 2 ^ 32) :
    Chunk.tryFrom (Chunk.as_bytes (Chunk.new t d)) =
      .err (.invalidChunkLength 0 0) := by
  have hshape : Chunk.as_bytes (Chunk.new t d) =
      0 :: 0 :: 0 :: 0 :: (t.bytes ++ (d ++ toBE4 (compute_crc (t.bytes ++ d)))) := by
    simp [Chunk.as_bytes, Chunk.new, toBE4, hd]
  rw [hshape]
  unfold Chunk.tryFrom
  rw [if_neg (by simp)]
  simp only [List.take_succ_cons, List.take_zero, List.drop_succ_cons, List.drop_zero]
  have hlen : (t.bytes ++ (d ++ toBE4 (compute_crc (t.bytes ++ d)))).length =
      2 ^ 32 + 8 := by
    simp [ChunkType.bytes, toBE4, hd]
  rw [hlen]
  rw [if_pos (by norm_num [fromBE4])]
  norm_num [fromBE4]

/-- Bit 0x20 is bit number 5. -/
theorem and32_eq_zero_iff (b : Nat) : b &&& 0x20 = 0 ↔ b.testBit 5 = false := by
  rw [show (0x20 : Nat) = 2 ^ 5 from rfl, Nat.and_two_pow]
  cases h : b.testBit 5 <;> simp

/-- Which `Box<dyn Error>` payloads carry the `InvalidChunkTypeBytes` kind
(the spec's `InvalidTagBytes`), as distinguishable by downcasting. -/
def PngError.isInvalidTagBytes : PngError → Bool
  | .invalidChunkTypeBytes _ _ _ _ => true
  | _ => false

/-- The payload bytes of the spec's concrete scenario,
"This is where your secret message will be!". -/
def secretMessage : List Nat :=
  [84, 104, 105, 115, 32, 105, 115, 32, 119, 104, 101, 114, 101, 32, 121, 111,
   117, 114, 32, 115, 101, 99, 114, 101, 116, 32, 109, 101, 115, 115, 97, 103,
   101, 32, 119, 105, 108, 108, 32, 98, 101, 33]

/-! ## Claims -/

/-- C1 (counterexample): the round trip fails for a chunk built from the valid
tag "RuSt" and a payload of `2 ^ 32` zero bytes — the serialized length field
wraps to 0, so decode rejects the buffer instead of reproducing the chunk. -/
theorem c1_counterexample :
    Chunk.tryFrom (Chunk.as_bytes (Chunk.new ⟨82, 117, 83, 116⟩ (List.replicate (2 ^ 32) 0))) ≠
      DecodeResult.ok (Chunk.new ⟨82, 117, 83, 116⟩ (List.replicate (2 ^ 32) 0)) := by
  rw [tryFrom_as_bytes_wronglen ⟨82, 117, 83, 116⟩ (List.replicate (2 ^ 32) 0)
    (by rw [List.length_replicate])]
  exact fun h => DecodeResult.noConfusion h

/-- C1 (amended): for every chunk built from a valid tag (all four bytes ASCII
alphabetic) and a payload of fewer than `2 ^ 32` bytes, decoding the serialized
bytes succeeds and reproduces the chunk — same tag, payload, and checksum. -/
theorem c1_roundtrip (t : ChunkType) (d : List Nat) (ht : t.wellFormed)
    (hd : d.length < 2 ^ 32) :
    Chunk.tryFrom (Chunk.as_bytes (Chunk.new t d)) = .ok (Chunk.new t d) :=
  tryFrom_as_bytes_new t d ht hd

/-- C1 witness: the round trip at the concrete tag "RuSt" with payload
`[1, 2, 3]`. -/
theorem c1_roundtrip_witness :
    Chunk.tryFrom (Chunk.as_bytes (Chunk.new ⟨82, 117, 83, 116⟩ [1, 2, 3])) =
      DecodeResult.ok (Chunk.new ⟨82, 117, 83, 116⟩ [1, 2, 3]) :=
  c1_roundtrip ⟨82, 117, 83, 116⟩ [1, 2, 3] (by decide) (by decide)

/-- C2 (code bug): for every input shorter than 4 bytes, `Chunk::try_from`
panics in `bytes.split_at(4)` (`mid > len`) instead of returning the
`TruncatedInput` error the spec promises. -/
theorem c2_short_input_panics (l : List Nat) (h : l.length < 4) :
    Chunk.tryFrom l = DecodeResult.panicked := by
  unfold Chunk.tryFrom
  rw [if_pos h]

/-- C2 witness: the spec's 2-byte scenario panics. -/
theorem c2_short_input_panics_witness :
    ([0, 0] : List Nat).length < 4 ∧ Chunk.tryFrom [0, 0] = DecodeResult.panicked :=
  ⟨by decide, c2_short_input_panics [0, 0] (by decide)⟩

/-- C3 (counterexample): on the 4-byte buffer `[0,0,0,0]` (declared length 0,
0 remaining bytes) decode fails with `InvalidChunkLength`, but the `received`
field is the wrapped value `2 ^ 32 - 8 = 4294967288`, not `remaining - 8`
(which is 0 as a truncated natural and `-8` as an integer). -/
theorem c3_counterexample :
    Chunk.tryFrom [0, 0, 0, 0] =
        .err (.invalidChunkLength 0 4294967288) ∧
      (4294967288 : Nat) ≠ 0 - 8 ∧ ¬((4294967288 : Int) = 0 - 8) := by
  refine ⟨by decide, by decide, by decide⟩

/-- C3 (amended): for every buffer of at least 4 bytes whose big-endian prefix
decodes to `L`, if `L + 8` differs from the remaining byte count, decode fails
with `InvalidChunkLength` carrying `expected = L` and
`received = (remaining - 8)` computed in wrapping `usize` arithmetic truncated
to `u32`; whenever `remaining ≥ 8` that value is exactly
`(remaining - 8) % 2 ^ 32`. The comparison is strict equality in both
directions, not a minimum. -/
theorem c3_length_mismatch (a b c d : Nat) (rest : List Nat)
    (hbytes : ∀ x ∈ a :: b :: c :: d :: rest, x < 256)
    (hsize : rest.length < 2 ^ 64)
    (hne : fromBE4 a b c d + 8 ≠ rest.length) :
    Chunk.tryFrom (a :: b :: c :: d :: rest) =
        .err (.invalidChunkLength (fromBE4 a b c d)
          ((rest.length + (2 ^ 64 - 8)) % 2 ^ 64 % 2 ^ 32)) ∧
      (8 ≤ rest.length →
        (rest.length + (2 ^ 64 - 8)) % 2 ^ 64 % 2 ^ 32 = (rest.length - 8) % 2 ^ 32) := by
  constructor
  · unfold Chunk.tryFrom
    rw [if_neg (by simp only [List.length_cons]; omega)]
    simp only [List.take_succ_cons, List.take_zero, List.drop_succ_cons, List.drop_zero]
    rw [if_pos hne]
  · intro h8
    omega

/-- C3 witness: an 11-byte buffer declaring length 1 but carrying no payload
byte (remaining = 7 ≠ 9). -/
theorem c3_length_mismatch_witness :
    (∀ x ∈ [0, 0, 0, 1, 82, 117, 83, 116, 0, 0, 0], x < 256) ∧
      ([82, 117, 83, 116, 0, 0, 0] : List Nat).length < 2 ^ 64 ∧
      fromBE4 0 0 0 1 + 8 ≠ ([82, 117, 83, 116, 0, 0, 0] : List Nat).length ∧
      Chunk.tryFrom [0, 0, 0, 1, 82, 117, 83, 116, 0, 0, 0] =
        .err (.invalidChunkLength 1 4294967295) :=
  ⟨by decide, by decide, by decide, by
    rw [(c3_length_mismatch 0 0 0 1 [82, 117, 83, 116, 0, 0, 0]
      (by decide) (by decide) (by decide)).1]
    decide⟩

/-- C4: every chunk obtainable through the public constructors — explicit
construction or successful decode — stores as its checksum exactly the CRC-32
of the tag's 4 bytes followed by the payload; decode cannot install a checksum
that is not recomputed from tag and payload. -/
theorem c4_checksum_derived :
    (∀ (t : ChunkType) (d : List Nat),
        (Chunk.new t d).crc = compute_crc (t.bytes ++ d)) ∧
    (∀ (bs : List Nat) (c : Chunk), Chunk.tryFrom bs = DecodeResult.ok c →
        c.crc = compute_crc (c.chunk_type.bytes ++ c.data)) := by
  refine ⟨fun t d => rfl, fun bs c h => ?_⟩
  unfold Chunk.tryFrom at h
  split at h
  · exact absurd h (by simp)
  · split at h
    · split at h
      · exact absurd h (by simp)
      · split at h
        · split at h
          · exact absurd h (by simp)
          · split at h
            · split at h
              · injection h with h2
                subst h2
                rfl
              · exact absurd h (by simp)
            · exact absurd h (by simp)
        · exact absurd h (by simp)
    · exact absurd h (by simp)

/-- C4 witness: the invariant at the tag "RuSt" with payload `[5]`, and at the
chunk decoded from the serialization of the empty-payload "RuSt" chunk. -/
theorem c4_checksum_derived_witness :
    (Chunk.new ⟨82, 117, 83, 116⟩ [5]).crc =
        compute_crc ((ChunkType.mk 82 117 83 116).bytes ++ [5]) ∧
      (Chunk.new ⟨82, 117, 83, 116⟩ []).crc =
        compute_crc ((Chunk.new ⟨82, 117, 83, 116⟩ []).chunk_type.bytes ++
          (Chunk.new ⟨82, 117, 83, 116⟩ []).data) :=
  ⟨c4_checksum_derived.1 ⟨82, 117, 83, 116⟩ [5],
   c4_checksum_derived.2 (Chunk.as_bytes (Chunk.new ⟨82, 117, 83, 116⟩ []))
     (Chunk.new ⟨82, 117, 83, 116⟩ [])
     (tryFrom_as_bytes_new ⟨82, 117, 83, 116⟩ [] (by decide) (by decide))⟩

/-- C5: on byte input, the table-driven `compute_crc` computes exactly the
plain bitwise reflected CRC-32 with polynomial 0xEDB88320 — register
initialized to 0xFFFFFFFF, eight conditional-shift reduction steps per byte,
final XOR with 0xFFFFFFFF. -/
theorem c5_table_crc_eq_bitwise (l : List Nat) (h : ∀ b ∈ l, b < 256) :
    compute_crc l = crc32_bitwise l := by
  unfold compute_crc crc32_bitwise
  rw [foldl_crcUpdate_eq l _ h]

/-- C5 witness: the two CRC definitions agree on the concrete tag bytes
"RuSt". -/
theorem c5_table_crc_eq_bitwise_witness :
    (∀ b ∈ [82, 117, 83, 116], b < 256) ∧
      compute_crc [82, 117, 83, 116] = crc32_bitwise [82, 117, 83, 116] :=
  ⟨by decide, c5_table_crc_eq_bitwise [82, 117, 83, 116] (by decide)⟩

/-- C6: tag construction from 4 raw bytes succeeds iff all four bytes are
ASCII letters; on success the stored bytes are exactly the input bytes, and on
failure the error is `InvalidChunkTypeBytes` (the spec's `InvalidTagBytes`).
The last conjunct pins `isAsciiAlphabetic` to the A-Z / a-z ranges. -/
theorem c6_tag_construction (b0 b1 b2 b3 : Nat) :
    ((isAsciiAlphabetic b0 && isAsciiAlphabetic b1 &&
        isAsciiAlphabetic b2 && isAsciiAlphabetic b3) = true →
      ChunkType.tryFrom b0 b1 b2 b3 = .ok ⟨b0, b1, b2, b3⟩ ∧
        (ChunkType.mk b0 b1 b2 b3).bytes = [b0, b1, b2, b3]) ∧
    ((isAsciiAlphabetic b0 && isAsciiAlphabetic b1 &&
        isAsciiAlphabetic b2 && isAsciiAlphabetic b3) = false →
      ChunkType.tryFrom b0 b1 b2 b3 = .error (.invalidChunkTypeBytes b0 b1 b2 b3)) ∧
    (isAsciiAlphabetic b0 = true ↔ (65 ≤ b0 ∧ b0 ≤ 90) ∨ (97 ≤ b0 ∧ b0 ≤ 122)) := by
  refine ⟨fun h => ⟨?_, rfl⟩, fun h => ?_, ?_⟩
  · unfold ChunkType.tryFrom
    rw [if_pos h]
  · unfold ChunkType.tryFrom
    rw [if_neg (by simp [h])]
  · simp [isAsciiAlphabetic]

/-- C6 witness: success at "RuSt" and failure at the digit-bearing bytes
`[82, 117, 49, 116]` ("Ru1t"). -/
theorem c6_tag_construction_witness :
    ChunkType.tryFrom 82 117 83 116 = .ok ⟨82, 117, 83, 116⟩ ∧
      ChunkType.tryFrom 82 117 49 116 = .error (.invalidChunkTypeBytes 82 117 49 116) :=
  ⟨((c6_tag_construction 82 117 83 116).1 (by decide)).1,
   (c6_tag_construction 82 117 49 116).2.1 (by decide)⟩

/-- C7: the four flag accessors test bit 5 (mask 0x20) of byte 0/1/2/3:
critical, public, and reserved-bit-valid hold exactly when the bit is clear,
safe-to-copy exactly when it is set, and `is_valid` coincides with
`is_reserved_bit_valid`. -/
theorem c7_flag_bits (t : ChunkType) :
    (t.is_critical = true ↔ t.b0.testBit 5 = false) ∧
    (t.is_public = true ↔ t.b1.testBit 5 = false) ∧
    (t.is_reserved_bit_valid = true ↔ t.b2.testBit 5 = false) ∧
    (t.is_safe_to_copy = true ↔ t.b3.testBit 5 = true) ∧
    t.is_valid = t.is_reserved_bit_valid := by
  refine ⟨?_, ?_, ?_, ?_, rfl⟩
  · simp only [ChunkType.is_critical, beq_iff_eq]
    exact and32_eq_zero_iff t.b0
  · simp only [ChunkType.is_public, beq_iff_eq]
    exact and32_eq_zero_iff t.b1
  · simp only [ChunkType.is_reserved_bit_valid, beq_iff_eq]
    exact and32_eq_zero_iff t.b2
  · simp only [ChunkType.is_safe_to_copy, bne_iff_ne, ne_eq]
    rw [and32_eq_zero_iff t.b3]
    cases h : t.b3.testBit 5 <;> simp

/-- C7 witness: the flag characterization at the concrete tag "RuSt". -/
theorem c7_flag_bits_witness :
    ((ChunkType.mk 82 117 83 116).is_critical = true ↔
        Nat.testBit 82 5 = false) ∧
      ((ChunkType.mk 82 117 83 116).is_public = true ↔
        Nat.testBit 117 5 = false) ∧
      ((ChunkType.mk 82 117 83 116).is_reserved_bit_valid = true ↔
        Nat.testBit 83 5 = false) ∧
      ((ChunkType.mk 82 117 83 116).is_safe_to_copy = true ↔
        Nat.testBit 116 5 = true) ∧
      (ChunkType.mk 82 117 83 116).is_valid =
        (ChunkType.mk 82 117 83 116).is_reserved_bit_valid :=
  c7_flag_bits ⟨82, 117, 83, 116⟩

/-- C8: the spec's concrete scenario. Tag bytes `[82,117,83,116]` ("RuSt")
construct successfully; the chunk built over the secret-message payload has
checksum 2882656334; the flag accessors give critical, non-public,
reserved-bit-valid, safe-to-copy. Tag text "Rust" (`[82,117,115,116]`) still
constructs (all alphabetic) but its reserved bit check and `is_valid` fail. -/
theorem c8_concrete_scenario :
    ChunkType.tryFrom 82 117 83 116 = .ok ⟨82, 117, 83, 116⟩ ∧
    (Chunk.new ⟨82, 117, 83, 116⟩ secretMessage).crc = 2882656334 ∧
    (ChunkType.mk 82 117 83 116).is_critical = true ∧
    (ChunkType.mk 82 117 83 116).is_public = false ∧
    (ChunkType.mk 82 117 83 116).is_reserved_bit_valid = true ∧
    (ChunkType.mk 82 117 83 116).is_safe_to_copy = true ∧
    ChunkType.fromStr [82, 117, 115, 116] = .ok ⟨82, 117, 115, 116⟩ ∧
    (ChunkType.mk 82 117 115 116).is_reserved_bit_valid = false ∧
    (ChunkType.mk 82 117 115 116).is_valid = false := by
  decide!

/-- C9 (counterexample): a 3-byte tag text makes `FromStr` fail with the
slice-conversion error (`TryFromSliceError`), which is not the
`InvalidTagBytes` kind the claim promises. -/
theorem c9_counterexample :
    ChunkType.fromStr [97, 98, 99] = .error PngError.tryFromSliceError ∧
      PngError.tryFromSliceError.isInvalidTagBytes = false := by
  decide

/-- C9 (amended): tag construction from text fails with `TryFromSliceError`
whenever the encoded string is not exactly 4 bytes, and with
`InvalidChunkTypeBytes` when it is 4 bytes but fails the alphabetic check —
two distinct error kinds, not one. -/
theorem c9_fromStr_errors (s : List Nat) :
    (s.length ≠ 4 → ChunkType.fromStr s = .error .tryFromSliceError) ∧
    (∀ a b c d, s = [a, b, c, d] →
      (isAsciiAlphabetic a && isAsciiAlphabetic b &&
        isAsciiAlphabetic c && isAsciiAlphabetic d) = false →
      ChunkType.fromStr s = .error (.invalidChunkTypeBytes a b c d)) := by
  constructor
  · intro h
    rcases s with _ | ⟨a, _ | ⟨b, _ | ⟨c, _ | ⟨d, _ | ⟨e, tl⟩⟩⟩⟩⟩
    · rfl
    · rfl
    · rfl
    · rfl
    · exact (h (by simp)).elim
    · rfl
  · rintro a b c d rfl hfail
    show (if (isAsciiAlphabetic a && isAsciiAlphabetic b &&
        isAsciiAlphabetic c && isAsciiAlphabetic d) = true then
          (Except.ok (ChunkType.mk a b c d) : Except PngError ChunkType)
        else Except.error (PngError.invalidChunkTypeBytes a b c d)) =
      Except.error (PngError.invalidChunkTypeBytes a b c d)
    rw [if_neg (by simp [hfail])]

/-- C9 witness: wrong length at "abc", invalid byte at "Ru1t". -/
theorem c9_fromStr_errors_witness :
    ChunkType.fromStr [97, 98, 99] = .error .tryFromSliceError ∧
      ChunkType.fromStr [82, 117, 49, 116] =
        .error (.invalidChunkTypeBytes 82 117 49 116) :=
  ⟨(c9_fromStr_errors [97, 98, 99]).1 (by decide),
   (c9_fromStr_errors [82, 117, 49, 116]).2 82 117 49 116 rfl (by decide)⟩

/-- C10: construction accepts payloads of any length, but the stored length
and the serialized 4-byte length field hold the payload length
modulo `2 ^ 32`; the decode-of-serialize round trip therefore holds under the
precondition `payload length < 2 ^ 32` and fails at a `2 ^ 32`-byte payload. -/
theorem c10_length_truncation (t : ChunkType) (d : List Nat) :
    Chunk.length (Chunk.new t d) = d.length % 2 ^ 32 ∧
    (Chunk.as_bytes (Chunk.new t d)).take 4 = toBE4 (d.length % 2 ^ 32) ∧
    (t.wellFormed → d.length < 2 ^ 32 →
      Chunk.tryFrom (Chunk.as_bytes (Chunk.new t d)) = .ok (Chunk.new t d)) ∧
    Chunk.tryFrom (Chunk.as_bytes (Chunk.new t (List.replicate (2 ^ 32) 0))) ≠
      DecodeResult.ok (Chunk.new t (List.replicate (2 ^ 32) 0)) := by
  refine ⟨rfl, ?_, fun ht hd => tryFrom_as_bytes_new t d ht hd, ?_⟩
  · simp [Chunk.as_bytes, Chunk.new, toBE4]
  · rw [tryFrom_as_bytes_wronglen t (List.replicate (2 ^ 32) 0)
      (by rw [List.length_replicate])]
    exact fun h => DecodeResult.noConfusion h

/-- C10 witness: length truncation and round trip at the tag "RuSt" with the
one-byte payload `[7]`. -/
theorem c10_length_truncation_witness :
    Chunk.length (Chunk.new ⟨82, 117, 83, 116⟩ [7]) = 1 % 2 ^ 32 ∧
      Chunk.tryFrom (Chunk.as_bytes (Chunk.new ⟨82, 117, 83, 116⟩ [7])) =
        DecodeResult.ok (Chunk.new ⟨82, 117, 83, 116⟩ [7]) :=
  ⟨(c10_length_truncation ⟨82, 117, 83, 116⟩ [7]).1,
   (c10_length_truncation ⟨82, 117, 83, 116⟩ [7]).2.2.1 (by decide) (by decide)⟩

end Pngme
